import Mathlib

/-!
Verification of the VTT transcript parsing / grouping / chunking / rendering
pipeline (`vtt_parser.py`, `clean_transcript.py`).

The Python source is shallowly embedded: every stateful loop becomes explicit
recursion, Python strings become Lean `String`/`List Char`, Python float
seconds become `ℚ` (all timestamp arithmetic in the verified claims is over
exactly-representable millisecond values), and the CPython `re` calls are
embedded as deterministic scanners implementing the concrete patterns used by
the source (`<v\s+([^>]+)>`, `</v>`, the timestamp pattern, and
`\[STATEMENT \d+\]`), whose backtracking on these patterns is deterministic.
-/

/-- Python `str.isspace`-style whitespace test for the ASCII whitespace
characters recognised by `str.strip()` and `\s` (space, tab, LF, CR, VT, FF). -/
def pyIsSpace (c : Char) : Bool :=
  c = ' ' || c = '\t' || c = '\n' || c = '\r' || c.toNat = 11 || c.toNat = 12

/-- Python `str.strip()`: remove leading and trailing whitespace. -/
def pyStrip (s : String) : String :=
  ⟨((s.data.dropWhile pyIsSpace).reverse.dropWhile pyIsSpace).reverse⟩

/-- Substring test on char lists: models Python's `needle in haystack`. -/
def hasSubstr (needle : List Char) : List Char → Bool
  | [] => needle.isEmpty
  | c :: rest => needle.isPrefixOf (c :: rest) || hasSubstr needle rest

/-- Python `' '.join(xs)`. -/
def joinSpace : List String → String
  | [] => ""
  | [s] => s
  | s :: rest => s ++ " " ++ joinSpace rest

/-- `TranscriptSegment` dataclass from `vtt_parser.py`. -/
structure TranscriptSegment where
  id : String
  start_time : String
  end_time : String
  speaker : String
  text : String
deriving DecidableEq

/-- `SpeakerStatement` dataclass from `vtt_parser.py` (the `full_text`
property is the derived function `full_text` below). -/
structure SpeakerStatement where
  speaker : String
  start_time : String
  end_time : String
  segments : List TranscriptSegment
deriving DecidableEq

/-- `SpeakerStatement.full_text`: `" ".join(seg.text for seg in self.segments)`. -/
def full_text (s : SpeakerStatement) : String :=
  joinSpace (s.segments.map (·.text))

/-- The chunker's rough token estimate: `len(statement.full_text) // 4`. -/
def estimate (s : SpeakerStatement) : Nat :=
  (full_text s).length / 4

/-- Loop body of `TranscriptChunker.create_chunks`: `cur` is `current_chunk`,
`curTok` is `current_tokens`; on over-budget with a non-empty current chunk the
chunk is closed and the statement starts a fresh chunk, otherwise the statement
is appended (`current_chunk.append(statement)` / `current_tokens += ...`). -/
def chunksGo (max_tokens : Nat) (cur : List SpeakerStatement) (curTok : Nat) :
    List SpeakerStatement → List (List SpeakerStatement)
  | [] => if cur.isEmpty then [] else [cur]
  | s :: rest =>
    if curTok + estimate s > max_tokens ∧ ¬ cur.isEmpty then
      cur :: chunksGo max_tokens [s] (estimate s) rest
    else
      chunksGo max_tokens (cur ++ [s]) (curTok + estimate s) rest

/-- `TranscriptChunker.create_chunks` (with `self.statements`, `self.max_tokens`
passed explicitly). -/
def create_chunks (max_tokens : Nat) (statements : List SpeakerStatement) :
    List (List SpeakerStatement) :=
  chunksGo max_tokens [] 0 statements

theorem chunksGo_flatten (max_tokens : Nat) :
    ∀ (rest : List SpeakerStatement) (cur : List SpeakerStatement) (curTok : Nat),
      (chunksGo max_tokens cur curTok rest).flatten = cur ++ rest := by
  intro rest
  induction rest with
  | nil =>
    intro cur curTok
    rw [chunksGo]
    split
    · next h => simp [List.isEmpty_iff.mp h]
    · simp
  | cons s rest ih =>
    intro cur curTok
    rw [chunksGo]
    split
    · simp [ih]
    · simp [ih]

theorem chunksGo_oversized (max_tokens : Nat) :
    ∀ (rest : List SpeakerStatement) (cur : List SpeakerStatement),
      (∀ s ∈ cur, estimate s > max_tokens → cur = [s]) →
      ∀ c ∈ chunksGo max_tokens cur ((cur.map estimate).sum) rest,
        ∀ s ∈ c, estimate s > max_tokens → c = [s] := by
  intro rest
  induction rest with
  | nil =>
    intro cur hcur c hc s hs hbig
    rw [chunksGo] at hc
    split at hc
    · simp at hc
    · simp at hc
      subst hc
      exact hcur s hs hbig
  | cons s rest ih =>
    intro cur hcur c hc t ht hbig
    rw [chunksGo] at hc
    split at hc
    · next h =>
      rcases List.mem_cons.mp hc with rfl | hmem
      · exact hcur t ht hbig
      · have hsing : ∀ u ∈ [s], estimate u > max_tokens → [s] = [u] := by
          intro u hu _
          simp at hu
          simp [hu]
        have := ih [s] hsing c
        simp only [List.map_cons, List.map_nil, List.sum_cons, List.sum_nil,
          Nat.add_zero] at this
        exact this hmem t ht hbig
    · next h =>
      have hnew : ∀ u ∈ cur ++ [s], estimate u > max_tokens → cur ++ [s] = [u] := by
        intro u hu hubig
        rcases List.mem_append.mp hu with hul | hur
        · exfalso
          have hcs : cur = [u] := hcur u hul hubig
          apply h
          subst hcs
          refine ⟨?_, by simp⟩
          simp only [List.map_cons, List.map_nil, List.sum_cons, List.sum_nil,
            Nat.add_zero]
          omega
        · simp at hur
          subst hur
          by_cases hce : cur = []
          · simp [hce]
          · exfalso
            apply h
            exact ⟨by omega, by simpa [List.isEmpty_iff] using hce⟩
      have hsum : (cur.map estimate).sum + estimate s = ((cur ++ [s]).map estimate).sum := by
        simp
      rw [hsum] at hc
      exact ih (cur ++ [s]) hnew c hc t ht hbig

/-- C2: concatenating the chunks returned by `create_chunks` reproduces the
input statement sequence exactly — no statement is dropped, duplicated,
reordered, or split across chunk boundaries. -/
theorem create_chunks_partition (max_tokens : Nat) (statements : List SpeakerStatement) :
    (create_chunks max_tokens statements).flatten = statements := by
  unfold create_chunks
  simpa using chunksGo_flatten max_tokens statements [] 0

/-- C3: a statement whose own size estimate `len(full_text) // 4` strictly
exceeds `max_tokens` still appears in the output of `create_chunks`, and any
chunk containing such a statement is exactly the singleton of that statement —
it is never dropped and never shares a chunk. -/
theorem create_chunks_oversized_singleton (max_tokens : Nat)
    (statements : List SpeakerStatement) :
    (∀ c ∈ create_chunks max_tokens statements, ∀ s ∈ c,
        estimate s > max_tokens → c = [s]) ∧
    (∀ s ∈ statements, estimate s > max_tokens →
        [s] ∈ create_chunks max_tokens statements) := by
  have hinv : ∀ c ∈ create_chunks max_tokens statements, ∀ s ∈ c,
      estimate s > max_tokens → c = [s] := by
    have := chunksGo_oversized max_tokens statements [] (by simp)
    simpa [create_chunks] using this
  refine ⟨hinv, ?_⟩
  intro s hs hbig
  have hj : s ∈ (create_chunks max_tokens statements).flatten := by
    rw [create_chunks_partition]
    exact hs
  rcases List.mem_flatten.mp hj with ⟨c, hc, hsc⟩
  have := hinv c hc s hsc hbig
  subst this
  exact hc

/-- Numeric value of an ASCII digit character (models `int()` digit handling). -/
def charVal (c : Char) : Nat := c.toNat - 48

/-- Decimal digit string to `Nat`: models Python `int(s)` on digit strings. -/
def natOfDigits (l : List Char) : Nat :=
  l.foldl (fun a c => a * 10 + charVal c) 0

/-- Python `str.split(sep)` for a single-character separator, on char lists
(empty pieces are kept, as in Python). -/
def splitOnChar (sep : Char) : List Char → List (List Char)
  | [] => [[]]
  | c :: rest =>
    match splitOnChar sep rest with
    | [] => [[]]
    | h :: t => if c = sep then [] :: h :: t else (c :: h) :: t

/-- Models Python `float(s)` on decimal literals such as `"12.345"`, as an
exact rational (all values reached in the verified claims are millisecond
decimals, on which CPython float arithmetic is exact). -/
def ratOfDecimal (s : List Char) : ℚ :=
  match splitOnChar '.' s with
  | [ip] => natOfDigits ip
  | ip :: fp :: _ => natOfDigits ip + (natOfDigits fp : ℚ) / (10 ^ fp.length)
  | [] => 0

/-- `TranscriptGrouper._time_to_seconds`: split on `:` into hours, minutes,
seconds-with-fraction and compute `hours*3600 + minutes*60 + seconds`. -/
def time_to_seconds (timestamp : String) : ℚ :=
  (natOfDigits ((splitOnChar ':' timestamp.data).getD 0 [])) * 3600
    + (natOfDigits ((splitOnChar ':' timestamp.data).getD 1 [])) * 60
    + ratOfDecimal ((splitOnChar ':' timestamp.data).getD 2 [])

/-- Placeholder segment used only to totalise `headD`/`getLastD` on lists that
are invariantly non-empty (the source indexes `[0]`/`[-1]` of a non-empty list). -/
def dfltSeg : TranscriptSegment := ⟨"", "", "", "", ""⟩

/-- Closing a statement in `group_by_speaker`: `SpeakerStatement(speaker=...,
start_time=current_statement[0].start_time, end_time=current_statement[-1].end_time,
segments=current_statement)`. -/
def mkStatement (speaker : String) (cur : List TranscriptSegment) : SpeakerStatement :=
  { speaker := speaker
    start_time := (cur.headD dfltSeg).start_time
    end_time := (cur.getLastD dfltSeg).end_time
    segments := cur }

/-- Loop of `TranscriptGrouper.group_by_speaker`: `cur` is `current_statement`,
`curSp` is `current_speaker`; a segment with the same speaker whose start is
within `max_gap_seconds` of the previous segment's end is appended, otherwise
the current statement is closed and a new one is seeded. -/
def groupGo (max_gap_seconds : ℚ) (curSp : String) (cur : List TranscriptSegment) :
    List TranscriptSegment → List SpeakerStatement
  | [] => if cur.isEmpty then [] else [mkStatement curSp cur]
  | seg :: rest =>
    if seg.speaker = curSp ∧
        time_to_seconds seg.start_time - time_to_seconds (cur.getLastD dfltSeg).end_time
          ≤ max_gap_seconds then
      groupGo max_gap_seconds curSp (cur ++ [seg]) rest
    else
      mkStatement curSp cur :: groupGo max_gap_seconds seg.speaker [seg] rest

/-- `TranscriptGrouper.group_by_speaker` (with `self.segments`,
`self.max_gap_seconds` passed explicitly): empty input yields `[]`, otherwise
the first segment seeds the current statement. -/
def group_by_speaker (max_gap_seconds : ℚ) (segments : List TranscriptSegment) :
    List SpeakerStatement :=
  match segments with
  | [] => []
  | s :: rest => groupGo max_gap_seconds s.speaker [s] rest

theorem groupGo_flatten (max_gap_seconds : ℚ) :
    ∀ (rest : List TranscriptSegment) (curSp : String) (cur : List TranscriptSegment),
      ((groupGo max_gap_seconds curSp cur rest).map (·.segments)).flatten = cur ++ rest := by
  intro rest
  induction rest with
  | nil =>
    intro curSp cur
    rw [groupGo]
    split
    · next h => simp [List.isEmpty_iff.mp h]
    · simp [mkStatement]
  | cons seg rest ih =>
    intro curSp cur
    rw [groupGo]
    split
    · simp [ih]
    · simp [mkStatement, ih]

theorem groupGo_shape (max_gap_seconds : ℚ) :
    ∀ (rest : List TranscriptSegment) (curSp : String) (cur : List TranscriptSegment),
      cur ≠ [] →
      ∀ st ∈ groupGo max_gap_seconds curSp cur rest,
        st.segments ≠ [] ∧
        st.start_time = (st.segments.headD dfltSeg).start_time ∧
        st.end_time = (st.segments.getLastD dfltSeg).end_time := by
  intro rest
  induction rest with
  | nil =>
    intro curSp cur hne st hst
    rw [groupGo] at hst
    split at hst
    · simp at hst
    · simp at hst
      subst hst
      exact ⟨hne, rfl, rfl⟩
  | cons seg rest ih =>
    intro curSp cur hne st hst
    rw [groupGo] at hst
    split at hst
    · exact ih curSp (cur ++ [seg]) (by simp) st hst
    · rcases List.mem_cons.mp hst with rfl | hmem
      · exact ⟨hne, rfl, rfl⟩
      · exact ih seg.speaker [seg] (by simp) st hmem

/-- C10: grouping partitions the input cue sequence exactly — concatenating the
`segments` lists of the returned statements (in order) yields the input — and
every returned statement has non-empty `segments` with `start_time` equal to
its first segment's start and `end_time` equal to its last segment's end. -/
theorem group_by_speaker_partition (max_gap_seconds : ℚ)
    (segments : List TranscriptSegment) :
    ((group_by_speaker max_gap_seconds segments).map (·.segments)).flatten = segments ∧
    ∀ st ∈ group_by_speaker max_gap_seconds segments,
      st.segments ≠ [] ∧
      st.start_time = (st.segments.headD dfltSeg).start_time ∧
      st.end_time = (st.segments.getLastD dfltSeg).end_time := by
  match segments with
  | [] => simp [group_by_speaker]
  | s :: rest =>
    constructor
    · simpa [group_by_speaker] using groupGo_flatten max_gap_seconds rest s.speaker [s]
    · intro st hst
      exact groupGo_shape max_gap_seconds rest s.speaker [s] (by simp) st hst

/-- A closed instance of `group_by_speaker_partition`, evaluated on a concrete
two-speaker cue list. -/
theorem group_by_speaker_partition_witness :
    ((⟨"Alice", "00:00:00.000", "00:00:02.000",
        [⟨"1", "00:00:00.000", "00:00:02.000", "Alice", "hi"⟩]⟩ : SpeakerStatement) ∈
      group_by_speaker 5 [⟨"1", "00:00:00.000", "00:00:02.000", "Alice", "hi"⟩,
        ⟨"2", "00:00:03.000", "00:00:04.000", "Bob", "yo"⟩]) ∧
    (⟨"Alice", "00:00:00.000", "00:00:02.000",
        [⟨"1", "00:00:00.000", "00:00:02.000", "Alice", "hi"⟩]⟩ : SpeakerStatement).segments
      ≠ [] :=
  ⟨by decide,
    ((group_by_speaker_partition 5
        [⟨"1", "00:00:00.000", "00:00:02.000", "Alice", "hi"⟩,
          ⟨"2", "00:00:03.000", "00:00:04.000", "Bob", "yo"⟩]).2
      ⟨"Alice", "00:00:00.000", "00:00:02.000",
        [⟨"1", "00:00:00.000", "00:00:02.000", "Alice", "hi"⟩]⟩ (by decide)).1⟩


theorem tts_00 : time_to_seconds "00:00:00.000" = 0 := by
  rw [time_to_seconds,
    show splitOnChar ':' "00:00:00.000".data = ["00".data, "00".data, "00.000".data]
      from by decide]
  norm_num [ratOfDecimal,
    show splitOnChar '.' "00.000".data = ["00".data, "000".data] from by decide,
    show natOfDigits "00".data = 0 from by decide,
    show natOfDigits "000".data = 0 from by decide]

theorem tts_02 : time_to_seconds "00:00:02.000" = 2 := by
  rw [time_to_seconds,
    show splitOnChar ':' "00:00:02.000".data = ["00".data, "00".data, "02.000".data]
      from by decide]
  norm_num [ratOfDecimal,
    show splitOnChar '.' "02.000".data = ["02".data, "000".data] from by decide,
    show natOfDigits "00".data = 0 from by decide,
    show natOfDigits "02".data = 2 from by decide,
    show natOfDigits "000".data = 0 from by decide]

theorem tts_04 : time_to_seconds "00:00:04.000" = 4 := by
  rw [time_to_seconds,
    show splitOnChar ':' "00:00:04.000".data = ["00".data, "00".data, "04.000".data]
      from by decide]
  norm_num [ratOfDecimal,
    show splitOnChar '.' "04.000".data = ["04".data, "000".data] from by decide,
    show natOfDigits "00".data = 0 from by decide,
    show natOfDigits "04".data = 4 from by decide,
    show natOfDigits "000".data = 0 from by decide]

theorem tts_10 : time_to_seconds "00:00:10.000" = 10 := by
  rw [time_to_seconds,
    show splitOnChar ':' "00:00:10.000".data = ["00".data, "00".data, "10.000".data]
      from by decide]
  norm_num [ratOfDecimal,
    show splitOnChar '.' "10.000".data = ["10".data, "000".data] from by decide,
    show natOfDigits "00".data = 0 from by decide,
    show natOfDigits "10".data = 10 from by decide,
    show natOfDigits "000".data = 0 from by decide]

/-- C6: grouping the three cues Alice(0-2s "um so"), Alice(2-4s "anyway"),
Bob(10-12s "ok") with `max_gap_seconds = 5` yields exactly the two statements
Alice(0s-4s, "um so anyway") and Bob(10s-12s, "ok"). -/
theorem group_alice_bob_gap5 :
    group_by_speaker 5
        [⟨"1", "00:00:00.000", "00:00:02.000", "Alice", "um so"⟩,
          ⟨"2", "00:00:02.000", "00:00:04.000", "Alice", "anyway"⟩,
          ⟨"3", "00:00:10.000", "00:00:12.000", "Bob", "ok"⟩] =
      [⟨"Alice", "00:00:00.000", "00:00:04.000",
          [⟨"1", "00:00:00.000", "00:00:02.000", "Alice", "um so"⟩,
            ⟨"2", "00:00:02.000", "00:00:04.000", "Alice", "anyway"⟩]⟩,
        ⟨"Bob", "00:00:10.000", "00:00:12.000",
          [⟨"3", "00:00:10.000", "00:00:12.000", "Bob", "ok"⟩]⟩] ∧
    time_to_seconds "00:00:00.000" = 0 ∧ time_to_seconds "00:00:04.000" = 4 ∧
    time_to_seconds "00:00:10.000" = 10 ∧
    time_to_seconds "00:00:12.000" = 12 ∧
    full_text ⟨"Alice", "00:00:00.000", "00:00:04.000",
        [⟨"1", "00:00:00.000", "00:00:02.000", "Alice", "um so"⟩,
          ⟨"2", "00:00:02.000", "00:00:04.000", "Alice", "anyway"⟩]⟩ = "um so anyway" ∧
    full_text ⟨"Bob", "00:00:10.000", "00:00:12.000",
        [⟨"3", "00:00:10.000", "00:00:12.000", "Bob", "ok"⟩]⟩ = "ok" := by
  refine ⟨?_, tts_00, tts_04, tts_10, ?_, by decide, by decide⟩
  · norm_num [group_by_speaker, groupGo, mkStatement, dfltSeg, tts_02, tts_04, tts_10]
  · rw [time_to_seconds,
      show splitOnChar ':' "00:00:12.000".data = ["00".data, "00".data, "12.000".data]
        from by decide]
    norm_num [ratOfDecimal,
      show splitOnChar '.' "12.000".data = ["12".data, "000".data] from by decide,
      show natOfDigits "00".data = 0 from by decide,
      show natOfDigits "12".data = 12 from by decide,
      show natOfDigits "000".data = 0 from by decide]

/-- C7 counterexample: with `max_gap_seconds = 1` the same three cues group
into 2 statements, not the 3 the claim asserts — the gap between the two Alice
cues is 0 ≤ 1, so they still merge. -/
theorem group_alice_bob_gap1_counterexample :
    (group_by_speaker 1
        [⟨"1", "00:00:00.000", "00:00:02.000", "Alice", "um so"⟩,
          ⟨"2", "00:00:02.000", "00:00:04.000", "Alice", "anyway"⟩,
          ⟨"3", "00:00:10.000", "00:00:12.000", "Bob", "ok"⟩]).length = 2 ∧
    (group_by_speaker 1
        [⟨"1", "00:00:00.000", "00:00:02.000", "Alice", "um so"⟩,
          ⟨"2", "00:00:02.000", "00:00:04.000", "Alice", "anyway"⟩,
          ⟨"3", "00:00:10.000", "00:00:12.000", "Bob", "ok"⟩]).length ≠ 3 := by
  have h : group_by_speaker 1
      [⟨"1", "00:00:00.000", "00:00:02.000", "Alice", "um so"⟩,
        ⟨"2", "00:00:02.000", "00:00:04.000", "Alice", "anyway"⟩,
        ⟨"3", "00:00:10.000", "00:00:12.000", "Bob", "ok"⟩] =
      [⟨"Alice", "00:00:00.000", "00:00:04.000",
          [⟨"1", "00:00:00.000", "00:00:02.000", "Alice", "um so"⟩,
            ⟨"2", "00:00:02.000", "00:00:04.000", "Alice", "anyway"⟩]⟩,
        ⟨"Bob", "00:00:10.000", "00:00:12.000",
          [⟨"3", "00:00:10.000", "00:00:12.000", "Bob", "ok"⟩]⟩] := by
    norm_num [group_by_speaker, groupGo, mkStatement, dfltSeg, tts_02, tts_04, tts_10]
  rw [h]
  exact ⟨rfl, by decide⟩

/-- C7 amended: grouping the three cues with `max_gap_seconds = 1` produces the
2 statements Alice(0s-4s) and Bob(10s-12s) — the 0-second gap between the two
Alice cues is within the threshold, so they merge. -/
theorem group_alice_bob_gap1 :
    group_by_speaker 1
        [⟨"1", "00:00:00.000", "00:00:02.000", "Alice", "um so"⟩,
          ⟨"2", "00:00:02.000", "00:00:04.000", "Alice", "anyway"⟩,
          ⟨"3", "00:00:10.000", "00:00:12.000", "Bob", "ok"⟩] =
      [⟨"Alice", "00:00:00.000", "00:00:04.000",
          [⟨"1", "00:00:00.000", "00:00:02.000", "Alice", "um so"⟩,
            ⟨"2", "00:00:02.000", "00:00:04.000", "Alice", "anyway"⟩]⟩,
        ⟨"Bob", "00:00:10.000", "00:00:12.000",
          [⟨"3", "00:00:10.000", "00:00:12.000", "Bob", "ok"⟩]⟩] := by
  norm_num [group_by_speaker, groupGo, mkStatement, dfltSeg, tts_02, tts_04, tts_10]

/-- Cleaned-mode rendering loop body from `clean_transcript.main` (Step 6):
one list element per `f.write` call. `prev` is `prev_speaker` (`none` =
Python `None`); an entry whose cleaned text strips to empty is skipped; a
heading (preceded by a blank separator except at `prev = none`) is written
when the entry's speaker differs from `prev`; every visible entry writes its
bolded start timestamp and its cleaned text. Entries are the
`zip(chunk, cleaned_chunk)` pairs of one chunk. -/
def renderEntries (prev : Option String) : List (SpeakerStatement × String) → List String
  | [] => []
  | (st, cleaned) :: rest =>
    if pyStrip cleaned = "" then renderEntries prev rest
    else if some st.speaker ≠ prev then
      (if prev = none then [] else ["\n"])
        ++ ["## " ++ st.speaker ++ "\n\n", "**" ++ st.start_time ++ "**  \n",
            cleaned ++ "\n\n"]
        ++ renderEntries (some st.speaker) rest
    else
      ["**" ++ st.start_time ++ "**  \n", cleaned ++ "\n\n"]
        ++ renderEntries prev rest

/-- The whole cleaned output document of `clean_transcript.main`: the header
written once, then each chunk rendered by the per-chunk loop — `prev_speaker`
is re-initialised to `None` for every chunk, exactly as in the source. -/
def cleaned_document (chunks : List (List (SpeakerStatement × String))) : List String :=
  "# Cleaned Meeting Transcript\n\n" :: (chunks.map (renderEntries none)).flatten

/-- An entry is visible when its replacement text is non-empty after trimming. -/
def visibleEntry (e : SpeakerStatement × String) : Bool :=
  !(pyStrip e.2 == "")

/-- Modelled from the spec: the §4.5 rendering rule as an explicit reducer over
the filtered (visible) entry stream — emit a heading exactly when the entry's
speaker differs from the speaker of the last entry that produced visible
output, with a blank separator before every heading except the first. -/
def specRenderGo (last : Option String) : List (SpeakerStatement × String) → List String
  | [] => []
  | (st, c) :: rest =>
    if last = some st.speaker then
      ["**" ++ st.start_time ++ "**  \n", c ++ "\n\n"] ++ specRenderGo last rest
    else
      (if last = none then [] else ["\n"])
        ++ ["## " ++ st.speaker ++ "\n\n", "**" ++ st.start_time ++ "**  \n", c ++ "\n\n"]
        ++ specRenderGo (some st.speaker) rest

/-- Modelled from the spec: §4.5 applied to one ordered entry sequence,
tracking the last speaker that actually produced visible output. -/
def renderSpecDoc (entries : List (SpeakerStatement × String)) : List String :=
  specRenderGo none (entries.filter visibleEntry)

theorem renderEntries_eq_specRenderGo (prev : Option String) :
    ∀ entries : List (SpeakerStatement × String),
      renderEntries prev entries = specRenderGo prev (entries.filter visibleEntry) := by
  intro entries
  induction entries generalizing prev with
  | nil => simp [renderEntries, specRenderGo]
  | cons e rest ih =>
    match e with
    | (st, cleaned) =>
      by_cases hblank : pyStrip cleaned = ""
      · rw [renderEntries]
        rw [if_pos hblank]
        have hvis : visibleEntry (st, cleaned) = false := by
          simp [visibleEntry, hblank]
        simp [List.filter_cons, hvis, ih]
      · rw [renderEntries]
        rw [if_neg hblank]
        have hvis : visibleEntry (st, cleaned) = true := by
          simp [visibleEntry, hblank]
        rw [List.filter_cons_of_pos hvis]
        by_cases hsp : some st.speaker = prev
        · rw [if_neg (by simp [hsp]), specRenderGo, if_pos hsp.symm, ih]
        · rw [if_pos hsp, specRenderGo, ih]
          simp only [if_neg (show ¬ prev = some st.speaker from fun hc => hsp hc.symm)]

/-- C1 amended: the cleaned-mode rendering equals the spec's
"heading on change of last visible speaker" rule applied independently to each
batch — `prev_speaker` restarts at every batch boundary, so the rule holds
within a batch but not across batches. -/
theorem cleaned_render_per_batch (chunks : List (List (SpeakerStatement × String))) :
    cleaned_document chunks =
      "# Cleaned Meeting Transcript\n\n" :: (chunks.map renderSpecDoc).flatten := by
  unfold cleaned_document renderSpecDoc
  congr 1
  congr 1
  exact List.map_eq_map_iff.mpr fun c _ => renderEntries_eq_specRenderGo none c

/-- C1 counterexample: two consecutive visibly-emitted entries with the same
speaker that fall in different batches DO get a second heading: the code's
document contains two `## Alice` headings, while the claim's document-wide
rule (the spec renderer applied to the flattened entry sequence) yields one. -/
theorem cleaned_heading_cross_batch_counterexample :
    ((cleaned_document
        [[(⟨"Alice", "00:00:00.000", "00:00:01.000", []⟩, "hello")],
          [(⟨"Alice", "00:00:01.000", "00:00:02.000", []⟩, "again")]]).count
      "## Alice\n\n") = 2 ∧
    (("# Cleaned Meeting Transcript\n\n" ::
        renderSpecDoc
          ([[(⟨"Alice", "00:00:00.000", "00:00:01.000", []⟩, "hello")],
            [(⟨"Alice", "00:00:01.000", "00:00:02.000", []⟩, "again")]] :
              List (List (SpeakerStatement × String))).flatten).count
      "## Alice\n\n") = 1 := by
  constructor
  · decide
  · decide

/-- C4: cleaned-mode rendering of the single batch
`[(A, "x"), (A, ""), (B, "y")]` — the whole document is computed explicitly:
the empty entry produces no output lines, and there is exactly one `## A`
heading and exactly one `## B` heading. -/
theorem skip_and_reattribute_single_batch :
    cleaned_document
        [[(⟨"A", "00:00:00.000", "00:00:01.000", []⟩, "x"),
          (⟨"A", "00:00:01.000", "00:00:02.000", []⟩, ""),
          (⟨"B", "00:00:02.000", "00:00:03.000", []⟩, "y")]] =
      ["# Cleaned Meeting Transcript\n\n",
        "## A\n\n", "**00:00:00.000**  \n", "x\n\n",
        "\n", "## B\n\n", "**00:00:02.000**  \n", "y\n\n"] ∧
    (cleaned_document
        [[(⟨"A", "00:00:00.000", "00:00:01.000", []⟩, "x"),
          (⟨"A", "00:00:01.000", "00:00:02.000", []⟩, ""),
          (⟨"B", "00:00:02.000", "00:00:03.000", []⟩, "y")]]).count "## A\n\n" = 1 ∧
    (cleaned_document
        [[(⟨"A", "00:00:00.000", "00:00:01.000", []⟩, "x"),
          (⟨"A", "00:00:01.000", "00:00:02.000", []⟩, ""),
          (⟨"B", "00:00:02.000", "00:00:03.000", []⟩, "y")]]).count "## B\n\n" = 1 := by
  refine ⟨by decide, by decide, by decide⟩

/-- Python `s.startswith(p)`. -/
def pyStartsWith (p s : String) : Bool :=
  p.data.isPrefixOf s.data

/-- Python `sep.join(xs)`. -/
def joinWith (sep : String) : List String → String
  | [] => ""
  | [s] => s
  | s :: rest => s ++ sep ++ joinWith sep rest

/-- Match of the `re.split` pattern `\[STATEMENT \d+\]` anchored at the head of
`cs`: the literal `[STATEMENT `, one or more digits, then `]`; returns the
total match length. Greedy `\d+` is deterministic here because a digit can
never match `]`. -/
def stmtMarkerAt (cs : List Char) : Option Nat :=
  if "[STATEMENT ".data.isPrefixOf cs then
    let rest := cs.drop 11
    let ds := rest.takeWhile Char.isDigit
    if ds.isEmpty then none
    else
      match rest.drop ds.length with
      | ']' :: _ => some (11 + ds.length + 1)
      | _ => none
  else none

/-- `re.split(r'\[STATEMENT \d+\]', text)`: scan left to right for
non-overlapping marker matches, cutting the text at each one. `skip` counts
the characters of a recognised marker still to be consumed (so the recursion
is structural on the char list); `acc` holds the current piece reversed. -/
def reSplitGo (skip : Nat) (acc : List Char) : List Char → List String
  | [] => [String.mk acc.reverse]
  | c :: rest =>
    match skip with
    | k + 1 => reSplitGo k acc rest
    | 0 =>
      match stmtMarkerAt (c :: rest) with
      | some n => String.mk acc.reverse :: reSplitGo (n - 1) [] rest
      | none => reSplitGo 0 (c :: acc) rest

/-- Per-part cleanup in `TranscriptCleaner.clean_chunk`: strip the part, split
it into lines, drop every line that starts with `Speaker:`, re-join with
newlines and strip. -/
def cleanSegment (part : String) : String :=
  let lines := (splitOnChar '\n' (pyStrip part).data).map String.mk
  let text_lines := lines.filter (fun l => !(pyStartsWith "Speaker:" l))
  pyStrip (joinWith "\n" text_lines)

/-- Placeholder statement totalising `getD` at indices that are invariantly in
range (the source indexes `statements[len(cleaned)]` under the loop guard). -/
def dfltStmt : SpeakerStatement := ⟨"", "", "", []⟩

/-- The `while len(cleaned) < len(statements)` padding loop of `clean_chunk`:
each pass appends `statements[len(cleaned)].full_text`; `missing` is the
still-uncovered suffix of `statements`, making the recursion structural. -/
def padGo (statements : List SpeakerStatement) (cleaned : List String) :
    List SpeakerStatement → List String
  | [] => cleaned
  | _ :: missingRest =>
    padGo statements
      (cleaned ++ [full_text (statements.getD cleaned.length dfltStmt)]) missingRest

/-- The padding loop entered with the parsed `cleaned` list: the loop runs once
per statement index not yet covered, i.e. per element of
`statements.drop cleaned.length`. -/
def padOriginals (statements : List SpeakerStatement) (cleaned : List String) :
    List String :=
  padGo statements cleaned (statements.drop cleaned.length)

/-- The response-parsing part of `TranscriptCleaner.clean_chunk` (everything
after the API call): strip the response, split on `[STATEMENT i]` markers,
drop the part before the first marker, clean each part, pad missing trailing
entries with the original `full_text`, and truncate to `len(statements)`. -/
def parse_llm_response (statements : List SpeakerStatement) (result_text : String) :
    List String :=
  let parts := reSplitGo 0 [] (pyStrip result_text).data
  let cleaned := (parts.drop 1).map cleanSegment
  (padOriginals statements cleaned).take statements.length

theorem getD_take (l : List α) :
    ∀ (n k : Nat) (d : α), k < n → (l.take n).getD k d = l.getD k d := by
  induction l with
  | nil => intro n k d _; simp
  | cons a l ih =>
    intro n k d h
    match n, k with
    | n + 1, 0 => simp [List.getD]
    | n + 1, k + 1 =>
      simp only [List.take_succ_cons, List.getD_cons_succ]
      exact ih n k d (Nat.lt_of_succ_lt_succ h)

theorem getD_append_left (l l' : List α) :
    ∀ (k : Nat) (d : α), k < l.length → (l ++ l').getD k d = l.getD k d := by
  induction l with
  | nil => intro k d h; simp at h
  | cons a l ih =>
    intro k d h
    match k with
    | 0 => simp [List.getD]
    | k + 1 =>
      simp only [List.cons_append, List.getD_cons_succ]
      exact ih k d (Nat.lt_of_succ_lt_succ h)

theorem getD_append_right (l l' : List α) :
    ∀ (k : Nat) (d : α), l.length ≤ k → (l ++ l').getD k d = l'.getD (k - l.length) d := by
  induction l with
  | nil => intro k d _; simp
  | cons a l ih =>
    intro k d h
    match k with
    | 0 => simp at h
    | k + 1 =>
      simp only [List.cons_append, List.getD_cons_succ, List.length_cons,
        Nat.succ_sub_succ]
      exact ih k d (Nat.le_of_succ_le_succ h)

theorem getD_map (f : α → β) (l : List α) :
    ∀ (k : Nat) (d : β) (d' : α), k < l.length →
      (l.map f).getD k d = f (l.getD k d') := by
  induction l with
  | nil => intro k d d' h; simp at h
  | cons a l ih =>
    intro k d d' h
    match k with
    | 0 => simp [List.getD]
    | k + 1 =>
      simp only [List.map_cons, List.getD_cons_succ]
      exact ih k d d' (Nat.lt_of_succ_lt_succ h)

theorem padGo_eq (statements : List SpeakerStatement) :
    ∀ (missing : List SpeakerStatement) (cleaned : List String),
      missing = statements.drop cleaned.length →
      padGo statements cleaned missing = cleaned ++ missing.map full_text := by
  intro missing
  induction missing with
  | nil => intro cleaned _; simp [padGo]
  | cons m ms ih =>
    intro cleaned h
    have hlt : cleaned.length < statements.length := by
      by_contra hge
      rw [List.drop_eq_nil_of_le (Nat.le_of_not_lt hge)] at h
      exact List.cons_ne_nil m ms h
    have hget : statements.getD cleaned.length dfltStmt = m := by
      have h0 : (statements.drop cleaned.length).getD 0 dfltStmt = m := by
        rw [← h]; rfl
      rw [List.getD_eq_getElem?_getD, List.getElem?_drop, Nat.add_zero,
        ← List.getD_eq_getElem?_getD] at h0
      exact h0
    have hnext : ms = statements.drop (cleaned ++ [full_text m]).length := by
      have h1 : statements.drop (cleaned.length + 1) = ms := by
        rw [← List.tail_drop, ← h]
        rfl
      rw [show (cleaned ++ [full_text m]).length = cleaned.length + 1 from by simp, h1]
    rw [padGo, hget, ih _ hnext]
    simp

/-- C9: the response-parsing part of `clean_chunk` returns exactly
`len(statements)` replacement texts; every position at or beyond the number of
parsed `[STATEMENT i]` segments is filled with that statement's original
`full_text` unchanged (extra segments beyond `len(statements)` are discarded
by the final truncation); and every in-range position holds the corresponding
response segment cleaned by `cleanSegment`, which removes every line beginning
with `Speaker:`. -/
theorem clean_chunk_response_spec (statements : List SpeakerStatement)
    (result_text : String) (_hne : statements ≠ []) :
    (parse_llm_response statements result_text).length = statements.length ∧
    (∀ k, k < statements.length →
      (((reSplitGo 0 [] (pyStrip result_text).data).drop 1).length ≤ k →
        (parse_llm_response statements result_text).getD k "" =
          full_text (statements.getD k dfltStmt)) ∧
      (k < ((reSplitGo 0 [] (pyStrip result_text).data).drop 1).length →
        (parse_llm_response statements result_text).getD k "" =
          cleanSegment (((reSplitGo 0 [] (pyStrip result_text).data).drop 1).getD k ""))) := by
  have hres : parse_llm_response statements result_text
      = (((reSplitGo 0 [] (pyStrip result_text).data).drop 1).map cleanSegment
          ++ (statements.drop
              (((reSplitGo 0 [] (pyStrip result_text).data).drop 1).map
                cleanSegment).length).map full_text).take statements.length := by
    simp only [parse_llm_response, padOriginals]
    rw [padGo_eq statements _ _ rfl]
  have hCn : (((reSplitGo 0 [] (pyStrip result_text).data).drop 1).map cleanSegment).length
      = ((reSplitGo 0 [] (pyStrip result_text).data).drop 1).length := by
    simp
  constructor
  · rw [hres]
    simp only [List.length_take, List.length_append, List.length_map, List.length_drop]
    omega
  · intro k hk
    constructor
    · intro hge
      rw [hres, getD_take _ _ _ _ hk,
        getD_append_right _ _ _ _ (by rw [hCn]; exact hge)]
      rw [getD_map full_text _ _ _ dfltStmt (by simp only [List.length_drop]; omega)]
      have hidx : (statements.drop
          (((reSplitGo 0 [] (pyStrip result_text).data).drop 1).map
            cleanSegment).length).getD
            (k - (((reSplitGo 0 [] (pyStrip result_text).data).drop 1).map
              cleanSegment).length) dfltStmt = statements.getD k dfltStmt := by
        rw [List.getD_eq_getElem?_getD, List.getElem?_drop,
          ← List.getD_eq_getElem?_getD]
        congr 1
        omega
      rw [hidx]
    · intro hlt
      rw [hres, getD_take _ _ _ _ hk,
        getD_append_left _ _ _ _ (by rw [hCn]; exact hlt)]
      exact getD_map cleanSegment _ k "" "" hlt

/-- A closed instance of `clean_chunk_response_spec`: a two-statement chunk
with a one-segment response pads position 1 with the original `full_text`. -/
theorem clean_chunk_response_witness :
    (([⟨"Alice", "00:00:00.000", "00:00:01.000",
          [⟨"1", "00:00:00.000", "00:00:01.000", "Alice", "hello there"⟩]⟩,
        ⟨"Bob", "00:00:01.000", "00:00:02.000",
          [⟨"2", "00:00:01.000", "00:00:02.000", "Bob", "bye now"⟩]⟩] :
        List SpeakerStatement) ≠ []) ∧
    (1 < 2) ∧
    (((reSplitGo 0 []
        (pyStrip "[STATEMENT 0]\nSpeaker: Alice\nhello").data).drop 1).length ≤ 1) ∧
    (parse_llm_response
        [⟨"Alice", "00:00:00.000", "00:00:01.000",
            [⟨"1", "00:00:00.000", "00:00:01.000", "Alice", "hello there"⟩]⟩,
          ⟨"Bob", "00:00:01.000", "00:00:02.000",
            [⟨"2", "00:00:01.000", "00:00:02.000", "Bob", "bye now"⟩]⟩]
        "[STATEMENT 0]\nSpeaker: Alice\nhello").getD 1 "" =
      full_text ⟨"Bob", "00:00:01.000", "00:00:02.000",
        [⟨"2", "00:00:01.000", "00:00:02.000", "Bob", "bye now"⟩]⟩ :=
  ⟨by decide, by decide, by decide,
    ((clean_chunk_response_spec
        [⟨"Alice", "00:00:00.000", "00:00:01.000",
            [⟨"1", "00:00:00.000", "00:00:01.000", "Alice", "hello there"⟩]⟩,
          ⟨"Bob", "00:00:01.000", "00:00:02.000",
            [⟨"2", "00:00:01.000", "00:00:02.000", "Bob", "bye now"⟩]⟩]
        "[STATEMENT 0]\nSpeaker: Alice\nhello" (by decide)).2 1 (by decide)).1 (by decide)⟩

/-- Match of the voice-tag pattern `<v\s+([^>]+)>` anchored at the head of
`cs`. After the literal `<v`, the greedy `\s+` and `[^>]+` are deterministic
up to the first `>` (neither class matches `>`): the match requires at least
two characters before the first `>`, the first of them whitespace; group 1 is
everything after the maximal whitespace run when that is non-empty, otherwise
— by the backtracking of `\s+` — just the last whitespace character. Returns
(group 1, total match length). -/
def vTagAt : List Char → Option (List Char × Nat)
  | a :: b :: cs =>
    if a = '<' then
      if b = 'v' then
        let content := cs.takeWhile (fun c => c != '>')
        if content.length = cs.length then none
        else
          match content with
          | x :: rest =>
            if pyIsSpace x && !rest.isEmpty then
              let g := (x :: rest).dropWhile pyIsSpace
              some (if g.isEmpty then [(x :: rest).getLastD x] else g,
                2 + content.length + 1)
            else none
          | [] => none
      else none
    else none
  | _ => none

/-- `re.search(r'<v\s+([^>]+)>', text)`: leftmost match, returning group 1. -/
def reSearchVTag : List Char → Option (List Char)
  | [] => none
  | c :: rest =>
    match vTagAt (c :: rest) with
    | some (g, _) => some g
    | none => reSearchVTag rest

/-- `re.sub(r'<v\s+[^>]+>', '', text)`: remove every non-overlapping
leftmost match. `skip` counts the characters of a recognised match still to
be consumed, keeping the recursion structural. -/
def subOpenGo : Nat → List Char → List Char
  | _, [] => []
  | k + 1, _ :: rest => subOpenGo k rest
  | 0, c :: rest =>
    match vTagAt (c :: rest) with
    | some (_, n) => subOpenGo (n - 1) rest
    | none => c :: subOpenGo 0 rest

/-- `re.sub(r'</v>', '', text)`: remove every occurrence of the literal
closing tag. -/
def reSubCloseTag : List Char → List Char
  | '<' :: '/' :: 'v' :: '>' :: rest => reSubCloseTag rest
  | c :: rest => c :: reSubCloseTag rest
  | [] => []

/-- Maximal digit run and remainder (the deterministic behaviour of a greedy
`\d+` followed by a non-digit literal). -/
def takeDigits (cs : List Char) : List Char × List Char :=
  (cs.takeWhile Char.isDigit, cs.dropWhile Char.isDigit)

/-- One `\d+:\d+:\d+\.\d+` group anchored at the head: returns the matched
characters and the remainder. -/
def matchTimeGroup (cs : List Char) : Option (List Char × List Char) :=
  let p1 := takeDigits cs
  if p1.1.isEmpty then none else
  match p1.2 with
  | ':' :: r2 =>
    let p2 := takeDigits r2
    if p2.1.isEmpty then none else
    match p2.2 with
    | ':' :: r4 =>
      let p3 := takeDigits r4
      if p3.1.isEmpty then none else
      match p3.2 with
      | '.' :: r6 =>
        let p4 := takeDigits r6
        if p4.1.isEmpty then none else
        some (p1.1 ++ ':' :: p2.1 ++ ':' :: p3.1 ++ '.' :: p4.1, p4.2)
      | _ => none
    | _ => none
  | _ => none

/-- `re.match(r'(\d+:\d+:\d+\.\d+)\s*-->\s*(\d+:\d+:\d+\.\d+)', timestamp)`:
anchored prefix match returning the two timestamp groups. -/
def matchTimestamp (timestamp : String) : Option (String × String) :=
  match matchTimeGroup timestamp.data with
  | none => none
  | some (g1, r1) =>
    let r2 := r1.dropWhile pyIsSpace
    if "-->".data.isPrefixOf r2 then
      match matchTimeGroup ((r2.drop 3).dropWhile pyIsSpace) with
      | none => none
      | some (g2, _) => some (String.mk g1, String.mk g2)
    else none

/-- `VTTParser._add_segment`: returns the produced segment as a list (empty
when the timestamp line fails the pattern, per the silent-skip `return`).
Joins the text lines with spaces, extracts the `<v Speaker>` voice tag if
present (stripping all opening and closing tags from the text and trimming
it), and otherwise emits speaker `"Unknown"` with the joined text verbatim. -/
def add_segment (segment_id timestamp : String) (text_lines : List String) :
    List TranscriptSegment :=
  match matchTimestamp timestamp with
  | none => []
  | some (start_time, end_time) =>
    let full := joinSpace text_lines
    match reSearchVTag full.data with
    | some sp =>
      [{ id := segment_id, start_time := start_time, end_time := end_time,
         speaker := pyStrip (String.mk sp),
         text := pyStrip (String.mk (reSubCloseTag (subOpenGo 0 full.data))) }]
    | none =>
      [{ id := segment_id, start_time := start_time, end_time := end_time,
         speaker := "Unknown", text := full }]

/-- The scanning loop of `VTTParser.parse`. `collecting = true` encodes being
inside the inner `while` that appends stripped text lines after a timestamp
line (the flag keeps the recursion structural); `collecting = false` is the
outer loop: a blank line emits the pending segment when id, timestamp and text
are all non-empty (and only then resets the three accumulators), a line
containing `-->` becomes the current timestamp and starts collecting, and any
other line overwrites the current id. The `[]` case is the flush-on-EOF. -/
def parseLoop (collecting : Bool) (current_id current_timestamp : String)
    (current_text : List String) : List String → List TranscriptSegment
  | [] =>
    if current_id != "" && current_timestamp != "" && !current_text.isEmpty then
      add_segment current_id current_timestamp current_text
    else []
  | l :: rest =>
    if collecting then
      if pyStrip l != "" then
        parseLoop true current_id current_timestamp
          (current_text ++ [pyStrip l]) rest
      else
        if current_id != "" && current_timestamp != "" && !current_text.isEmpty then
          add_segment current_id current_timestamp current_text
            ++ parseLoop false "" "" [] rest
        else
          parseLoop false current_id current_timestamp current_text rest
    else
      if pyStrip l = "" then
        if current_id != "" && current_timestamp != "" && !current_text.isEmpty then
          add_segment current_id current_timestamp current_text
            ++ parseLoop false "" "" [] rest
        else
          parseLoop false current_id current_timestamp current_text rest
      else if hasSubstr "-->".data (pyStrip l).data then
        parseLoop true current_id (pyStrip l) current_text rest
      else
        parseLoop false (pyStrip l) current_timestamp current_text rest

/-- `VTTParser.parse` on the file's lines: skip everything before the line
whose stripped form starts with `WEBVTT`, skip that line and the following
blank lines, then run the scanning loop with empty accumulators. -/
def parseLines (lines : List String) : List TranscriptSegment :=
  let r1 := lines.dropWhile (fun l => !(pyStartsWith "WEBVTT" (pyStrip l)))
  let r2 := r1.drop 1
  let r3 := r2.dropWhile (fun l => pyStrip l == "")
  parseLoop false "" "" [] r3

/-- `VTTParser.parse` on the raw file content: split on newlines and scan. -/
def parse (content : String) : List TranscriptSegment :=
  parseLines ((splitOnChar '\n' content.data).map String.mk)

theorem takeWhile_append_of_sat (p : Char → Bool) :
    ∀ (xs : List Char) (y : Char) (ys : List Char),
      (∀ x ∈ xs, p x = true) → p y = false →
      (xs ++ y :: ys).takeWhile p = xs := by
  intro xs
  induction xs with
  | nil =>
    intro y ys _ hy
    simp [List.takeWhile, hy]
  | cons a l ih =>
    intro y ys hall hy
    have ha : p a = true := hall a (by simp)
    simp only [List.cons_append, List.takeWhile_cons, ha]
    simp [ih y ys (fun x hx => hall x (by simp [hx])) hy]

theorem dropWhile_append_of_sat (p : Char → Bool) :
    ∀ (xs : List Char) (y : Char) (ys : List Char),
      (∀ x ∈ xs, p x = true) → p y = false →
      (xs ++ y :: ys).dropWhile p = y :: ys := by
  intro xs
  induction xs with
  | nil =>
    intro y ys _ hy
    simp [List.dropWhile, hy]
  | cons a l ih =>
    intro y ys hall hy
    have ha : p a = true := hall a (by simp)
    simp only [List.cons_append, List.dropWhile_cons, ha]
    simp [ih y ys (fun x hx => hall x (by simp [hx])) hy]

theorem dropWhile_idem (p : Char → Bool) (l : List Char) :
    (l.dropWhile p).dropWhile p = l.dropWhile p := by
  induction l with
  | nil => simp
  | cons a l ih =>
    by_cases h : p a = true
    · simpa [List.dropWhile_cons, h] using ih
    · simp only [List.dropWhile_cons]
      rw [if_neg (by simp [h]), List.dropWhile_cons, if_neg (by simp [h])]

theorem pyStrip_of_dropWhile_nil (s : String)
    (h : s.data.dropWhile pyIsSpace = []) : pyStrip s = "" := by
  simp [pyStrip, h]

theorem dropWhile_ne_nil_of_pyStrip (s : String) (h : pyStrip s ≠ "") :
    s.data.dropWhile pyIsSpace ≠ [] :=
  fun hc => h (pyStrip_of_dropWhile_nil s hc)

theorem pyStrip_mk_dropWhile (name : String) :
    pyStrip (String.mk (name.data.dropWhile pyIsSpace)) = pyStrip name := by
  simp [pyStrip, dropWhile_idem]


/-- The voice-tag matcher on a well-formed opening tag: with no `>` inside the
name, a space after `<v`, and a name that is not all whitespace, group 1 is
the name with its leading whitespace removed and the match spans the whole
`<v ...>` tag. -/
theorem vTagAt_wellformed (name : String) (rest : List Char)
    (hgt : '>' ∉ name.data) (hns : pyStrip name ≠ "") :
    vTagAt ('<' :: 'v' :: ' ' :: (name.data ++ '>' :: rest)) =
      some (name.data.dropWhile pyIsSpace, name.data.length + 4) := by
  have hne : name.data ≠ [] := by
    intro hc
    exact dropWhile_ne_nil_of_pyStrip name hns (by simp [hc])
  have hdw : name.data.dropWhile pyIsSpace ≠ [] :=
    dropWhile_ne_nil_of_pyStrip name hns
  have hsat : ∀ x ∈ ' ' :: name.data, (x != '>') = true := by
    intro x hx
    simp only [List.mem_cons] at hx
    rcases hx with rfl | hx
    · decide
    · simp only [bne_iff_ne, ne_eq]
      intro hc
      exact hgt (hc ▸ hx)
  have htw : ((' ' :: name.data) ++ '>' :: rest).takeWhile (fun c => c != '>')
      = ' ' :: name.data :=
    takeWhile_append_of_sat _ _ _ _ hsat (by decide)
  simp only [vTagAt]
  rw [List.cons_append] at htw
  rw [htw]
  simp only [if_true]
  rw [if_neg (by simp)]
  have hsp : pyIsSpace ' ' = true := by decide
  simp only [List.dropWhile_cons, hsp, if_true]
  rw [if_pos (by simp [hne])]
  rw [if_neg (by simp [hdw])]
  simp only [List.length_cons]
  norm_num
  omega

/-- No voice-tag match can start at a character other than `<`. -/
theorem vTagAt_cons_ne (c : Char) (l : List Char) (h : c ≠ '<') :
    vTagAt (c :: l) = none := by
  match l with
  | [] => rfl
  | b :: l' =>
    simp only [vTagAt]
    rw [if_neg h]

theorem subOpenGo_free (l : List Char) (rest : List Char) (hl : '<' ∉ l) :
    subOpenGo 0 (l ++ rest) = l ++ subOpenGo 0 rest := by
  induction l with
  | nil => simp
  | cons c l' ih =>
    have hc : c ≠ '<' := fun hcc => hl (by simp [hcc])
    rw [List.cons_append, subOpenGo,
      vTagAt_cons_ne c _ hc,
      ih (fun hm => hl (by simp [hm])), List.cons_append]

theorem subOpenGo_consume : ∀ (l : List Char) (rest : List Char),
    subOpenGo l.length (l ++ rest) = subOpenGo 0 rest := by
  intro l
  induction l with
  | nil => intro rest; simp
  | cons c l' ih =>
    intro rest
    rw [List.cons_append, List.length_cons, subOpenGo]
    exact ih rest

theorem subOpenGo_close (rest : List Char) :
    subOpenGo 0 ('<' :: '/' :: 'v' :: '>' :: rest) =
      '<' :: '/' :: 'v' :: '>' :: subOpenGo 0 rest := by
  rw [subOpenGo, show vTagAt ('<' :: '/' :: 'v' :: '>' :: rest) = none from by
    simp [vTagAt]]
  rw [subOpenGo, vTagAt_cons_ne '/' _ (by decide)]
  rw [subOpenGo, vTagAt_cons_ne 'v' _ (by decide)]
  rw [subOpenGo, vTagAt_cons_ne '>' _ (by decide)]

theorem reSubCloseTag_cons_ne (c : Char) (l : List Char) (h : c ≠ '<') :
    reSubCloseTag (c :: l) = c :: reSubCloseTag l := by
  rw [reSubCloseTag.eq_def]
  split
  all_goals simp_all

theorem reSubCloseTag_free (l : List Char) (rest : List Char) (hl : '<' ∉ l) :
    reSubCloseTag (l ++ rest) = l ++ reSubCloseTag rest := by
  induction l with
  | nil => simp
  | cons c l' ih =>
    have hc : c ≠ '<' := fun hcc => hl (by simp [hcc])
    rw [List.cons_append, reSubCloseTag_cons_ne c _ hc,
      ih (fun hm => hl (by simp [hm])), List.cons_append]

theorem reSubCloseTag_close (rest : List Char) :
    reSubCloseTag ('<' :: '/' :: 'v' :: '>' :: rest) = reSubCloseTag rest := by
  rfl

/-- No voice tag is found in text containing no `<` character. -/
theorem reSearchVTag_free (cs : List Char) (h : '<' ∉ cs) :
    reSearchVTag cs = none := by
  induction cs with
  | nil => rfl
  | cons c rest ih =>
    have hc : c ≠ '<' := fun hcc => h (by simp [hcc])
    rw [reSearchVTag, vTagAt_cons_ne c _ hc]
    exact ih (fun hm => h (by simp [hm]))

theorem reSearchVTag_cons_some (c : Char) (rest : List Char) (g : List Char)
    (n : Nat) (h : vTagAt (c :: rest) = some (g, n)) :
    reSearchVTag (c :: rest) = some g := by
  simp only [reSearchVTag, h]

theorem subOpenGo_cons_some (c : Char) (rest : List Char) (g : List Char)
    (n : Nat) (h : vTagAt (c :: rest) = some (g, n)) :
    subOpenGo 0 (c :: rest) = subOpenGo (n - 1) rest := by
  simp only [subOpenGo, h]

theorem mk_data (s : String) : String.mk s.data = s := rfl

theorem voiceTag_single (segment_id timestamp start_time end_time : String)
    (name body : String)
    (hts : matchTimestamp timestamp = some (start_time, end_time))
    (hn1 : '>' ∉ name.data) (hn3 : pyStrip name ≠ "")
    (hb : '<' ∉ body.data) :
    add_segment segment_id timestamp ["<v " ++ name ++ ">" ++ body ++ "</v>"] =
      [⟨segment_id, start_time, end_time, pyStrip name, pyStrip body⟩] := by
  have hdata : (("<v " ++ name ++ ">" ++ body ++ "</v>") : String).data
      = '<' :: 'v' :: ' ' :: (name.data ++ '>' :: (body.data ++ ['<', '/', 'v', '>'])) := by
    simp only [String.data_append,
      show ("<v " : String).data = ['<', 'v', ' '] from rfl,
      show ((">" : String)).data = ['>'] from rfl,
      show (("</v>" : String)).data = ['<', '/', 'v', '>'] from rfl,
      List.cons_append, List.nil_append, List.append_assoc]
  have hv := vTagAt_wellformed name (body.data ++ ['<', '/', 'v', '>']) hn1 hn3
  have hjoin : joinSpace ["<v " ++ name ++ ">" ++ body ++ "</v>"]
      = "<v " ++ name ++ ">" ++ body ++ "</v>" := rfl
  have hsearch : reSearchVTag (("<v " ++ name ++ ">" ++ body ++ "</v>") : String).data
      = some (name.data.dropWhile pyIsSpace) := by
    rw [hdata]
    exact reSearchVTag_cons_some _ _ _ _ hv
  have hsub : subOpenGo 0 (("<v " ++ name ++ ">" ++ body ++ "</v>") : String).data
      = body.data ++ ['<', '/', 'v', '>'] := by
    rw [hdata, subOpenGo_cons_some _ _ _ _ hv]
    rw [show name.data.length + 4 - 1
        = (('v' :: ' ' :: name.data ++ ['>']) : List Char).length from by simp]
    rw [show ('v' :: ' ' :: (name.data ++ '>' :: (body.data ++ ['<', '/', 'v', '>'])))
        = ('v' :: ' ' :: name.data ++ ['>']) ++ (body.data ++ ['<', '/', 'v', '>'])
        from by simp]
    rw [subOpenGo_consume, subOpenGo_free _ _ hb]
    rfl
  have hclose : reSubCloseTag (body.data ++ ['<', '/', 'v', '>']) = body.data := by
    rw [reSubCloseTag_free _ _ hb]
    simp [show reSubCloseTag ['<', '/', 'v', '>'] = [] from rfl]
  simp only [add_segment, hts, hjoin, hsearch, hsub, hclose,
    pyStrip_mk_dropWhile, mk_data]

theorem subOpenGo_cons_none (c : Char) (rest : List Char)
    (h : vTagAt (c :: rest) = none) :
    subOpenGo 0 (c :: rest) = c :: subOpenGo 0 rest := by
  simp only [subOpenGo, h]

theorem voiceTag_double (segment_id timestamp start_time end_time : String)
    (name body name2 body2 : String)
    (hts : matchTimestamp timestamp = some (start_time, end_time))
    (hn1 : '>' ∉ name.data) (hn3 : pyStrip name ≠ "")
    (hb : '<' ∉ body.data)
    (hm1 : '>' ∉ name2.data) (hm3 : pyStrip name2 ≠ "")
    (hc : '<' ∉ body2.data) :
    add_segment segment_id timestamp
        ["<v " ++ name ++ ">" ++ body ++ "</v>", "<v " ++ name2 ++ ">" ++ body2 ++ "</v>"] =
      [⟨segment_id, start_time, end_time, pyStrip name,
        pyStrip (body ++ " " ++ body2)⟩] := by
  have hjoin : joinSpace
      ["<v " ++ name ++ ">" ++ body ++ "</v>", "<v " ++ name2 ++ ">" ++ body2 ++ "</v>"]
      = ("<v " ++ name ++ ">" ++ body ++ "</v>") ++ " "
        ++ ("<v " ++ name2 ++ ">" ++ body2 ++ "</v>") := rfl
  have hdata : ((("<v " ++ name ++ ">" ++ body ++ "</v>") ++ " "
        ++ ("<v " ++ name2 ++ ">" ++ body2 ++ "</v>")) : String).data
      = '<' :: 'v' :: ' ' :: (name.data ++ '>' ::
          (body.data ++ '<' :: '/' :: 'v' :: '>' :: ' ' :: '<' :: 'v' :: ' ' ::
            (name2.data ++ '>' :: (body2.data ++ ['<', '/', 'v', '>'])))) := by
    simp only [String.data_append,
      show ("<v " : String).data = ['<', 'v', ' '] from rfl,
      show ((">" : String)).data = ['>'] from rfl,
      show (("</v>" : String)).data = ['<', '/', 'v', '>'] from rfl,
      show ((" " : String)).data = [' '] from rfl,
      List.cons_append, List.nil_append, List.append_assoc]
  have hv1 := vTagAt_wellformed name
    (body.data ++ '<' :: '/' :: 'v' :: '>' :: ' ' :: '<' :: 'v' :: ' ' ::
      (name2.data ++ '>' :: (body2.data ++ ['<', '/', 'v', '>']))) hn1 hn3
  have hv2 := vTagAt_wellformed name2 (body2.data ++ ['<', '/', 'v', '>']) hm1 hm3
  have hsearch : reSearchVTag ((("<v " ++ name ++ ">" ++ body ++ "</v>") ++ " "
        ++ ("<v " ++ name2 ++ ">" ++ body2 ++ "</v>")) : String).data
      = some (name.data.dropWhile pyIsSpace) := by
    rw [hdata]
    exact reSearchVTag_cons_some _ _ _ _ hv1
  have hsub : subOpenGo 0 ((("<v " ++ name ++ ">" ++ body ++ "</v>") ++ " "
        ++ ("<v " ++ name2 ++ ">" ++ body2 ++ "</v>")) : String).data
      = body.data ++ '<' :: '/' :: 'v' :: '>' :: ' ' ::
          (body2.data ++ ['<', '/', 'v', '>']) := by
    rw [hdata, subOpenGo_cons_some _ _ _ _ hv1]
    rw [show name.data.length + 4 - 1
        = (('v' :: ' ' :: name.data ++ ['>']) : List Char).length from by simp]
    rw [show ('v' :: ' ' :: (name.data ++ '>' ::
          (body.data ++ '<' :: '/' :: 'v' :: '>' :: ' ' :: '<' :: 'v' :: ' ' ::
            (name2.data ++ '>' :: (body2.data ++ ['<', '/', 'v', '>'])))))
        = ('v' :: ' ' :: name.data ++ ['>'])
          ++ (body.data ++ '<' :: '/' :: 'v' :: '>' :: ' ' :: '<' :: 'v' :: ' ' ::
            (name2.data ++ '>' :: (body2.data ++ ['<', '/', 'v', '>'])))
        from by simp]
    rw [subOpenGo_consume, subOpenGo_free _ _ hb, subOpenGo_close,
      subOpenGo_cons_none ' ' _ (vTagAt_cons_ne ' ' _ (by decide)),
      subOpenGo_cons_some _ _ _ _ hv2]
    rw [show name2.data.length + 4 - 1
        = (('v' :: ' ' :: name2.data ++ ['>']) : List Char).length from by simp]
    rw [show ('v' :: ' ' :: (name2.data ++ '>' :: (body2.data ++ ['<', '/', 'v', '>'])))
        = ('v' :: ' ' :: name2.data ++ ['>']) ++ (body2.data ++ ['<', '/', 'v', '>'])
        from by simp]
    rw [subOpenGo_consume, subOpenGo_free _ _ hc]
    rfl
  have hclose : reSubCloseTag (body.data ++ '<' :: '/' :: 'v' :: '>' :: ' ' ::
        (body2.data ++ ['<', '/', 'v', '>']))
      = body.data ++ ' ' :: body2.data := by
    rw [reSubCloseTag_free _ _ hb, reSubCloseTag_close,
      reSubCloseTag_cons_ne ' ' _ (by decide),
      reSubCloseTag_free _ _ hc]
    simp [show reSubCloseTag ['<', '/', 'v', '>'] = [] from rfl]
  have htext : String.mk (body.data ++ ' ' :: body2.data) = body ++ " " ++ body2 := by
    rw [← show (body ++ " " ++ body2).data = body.data ++ ' ' :: body2.data from by
      simp only [String.data_append, show ((" " : String)).data = [' '] from rfl,
        List.append_assoc, List.cons_append, List.nil_append]]
  simp only [add_segment, hts, hjoin, hsearch, hsub, hclose, htext,
    pyStrip_mk_dropWhile]

theorem joinSpace_free (ls : List String) (h : ∀ l ∈ ls, '<' ∉ l.data) :
    '<' ∉ (joinSpace ls).data := by
  induction ls with
  | nil => simp [joinSpace]
  | cons s rest ih =>
    match rest with
    | [] => simpa [joinSpace] using h s (by simp)
    | s2 :: rest2 =>
      rw [show joinSpace (s :: s2 :: rest2) = s ++ " " ++ joinSpace (s2 :: rest2) from rfl]
      simp only [String.data_append]
      intro hx
      rcases List.mem_append.mp hx with h1 | h2
      · rcases List.mem_append.mp h1 with h1a | h1b
        · exact h s (by simp) h1a
        · simp [show ((" " : String)).data = [' '] from rfl] at h1b
      · exact (ih (fun l hl => h l (by simp [hl]))) h2

theorem voiceTag_none (segment_id timestamp start_time end_time : String)
    (text_lines : List String)
    (hts : matchTimestamp timestamp = some (start_time, end_time))
    (hfree : ∀ l ∈ text_lines, '<' ∉ l.data) :
    add_segment segment_id timestamp text_lines =
      [⟨segment_id, start_time, end_time, "Unknown", joinSpace text_lines⟩] := by
  simp only [add_segment, hts,
    reSearchVTag_free (joinSpace text_lines).data (joinSpace_free text_lines hfree)]

/-- C5: speaker/voice-tag extraction in `_add_segment`. For a cue block whose
joined text lines contain a `<v SpeakerName>` voice tag, the segment's speaker
is the trimmed contents of that tag and every opening `<v ...>` tag and every
closing `</v>` tag is removed from the text, which is then trimmed (shown for
a single tag and for two tags across two text lines); for a cue block with no
such tag (no `<` at all), the speaker is exactly `"Unknown"` and the text is
the text lines joined with single spaces, unmodified. -/
theorem voice_tag_extraction :
    (∀ (segment_id timestamp start_time end_time name body : String),
        matchTimestamp timestamp = some (start_time, end_time) →
        '>' ∉ name.data → pyStrip name ≠ "" → '<' ∉ body.data →
        add_segment segment_id timestamp ["<v " ++ name ++ ">" ++ body ++ "</v>"] =
          [⟨segment_id, start_time, end_time, pyStrip name, pyStrip body⟩]) ∧
    (∀ (segment_id timestamp start_time end_time name body name2 body2 : String),
        matchTimestamp timestamp = some (start_time, end_time) →
        '>' ∉ name.data → pyStrip name ≠ "" → '<' ∉ body.data →
        '>' ∉ name2.data → pyStrip name2 ≠ "" → '<' ∉ body2.data →
        add_segment segment_id timestamp
            ["<v " ++ name ++ ">" ++ body ++ "</v>",
              "<v " ++ name2 ++ ">" ++ body2 ++ "</v>"] =
          [⟨segment_id, start_time, end_time, pyStrip name,
            pyStrip (body ++ " " ++ body2)⟩]) ∧
    (∀ (segment_id timestamp start_time end_time : String)
        (text_lines : List String),
        matchTimestamp timestamp = some (start_time, end_time) →
        (∀ l ∈ text_lines, '<' ∉ l.data) →
        add_segment segment_id timestamp text_lines =
          [⟨segment_id, start_time, end_time, "Unknown", joinSpace text_lines⟩]) :=
  ⟨fun i t st en n b hts h1 h3 hb => voiceTag_single i t st en n b hts h1 h3 hb,
    fun i t st en n b n2 b2 hts h1 h3 hb h4 h6 hc =>
      voiceTag_double i t st en n b n2 b2 hts h1 h3 hb h4 h6 hc,
    fun i t st en ls hts hfree => voiceTag_none i t st en ls hts hfree⟩

/-- A closed instance of `voice_tag_extraction`: a concrete tagged cue block
and a concrete untagged one. -/
theorem voice_tag_extraction_witness :
    (matchTimestamp "00:00:01.000 --> 00:00:02.000" =
      some ("00:00:01.000", "00:00:02.000")) ∧
    ('>' ∉ ("Alice" : String).data) ∧ (pyStrip "Alice" ≠ "") ∧
    ('<' ∉ ("hello there" : String).data) ∧
    (add_segment "7" "00:00:01.000 --> 00:00:02.000"
        ["<v " ++ "Alice" ++ ">" ++ "hello there" ++ "</v>"] =
      [⟨"7", "00:00:01.000", "00:00:02.000", pyStrip "Alice", pyStrip "hello there"⟩]) ∧
    (add_segment "8" "00:00:01.000 --> 00:00:02.000" ["plain words"] =
      [⟨"8", "00:00:01.000", "00:00:02.000", "Unknown", joinSpace ["plain words"]⟩]) :=
  ⟨by decide, by decide, by decide, by decide,
    voice_tag_extraction.1 "7" "00:00:01.000 --> 00:00:02.000" "00:00:01.000"
      "00:00:02.000" "Alice" "hello there" (by decide) (by decide) (by decide) (by decide),
    voice_tag_extraction.2.2 "8" "00:00:01.000 --> 00:00:02.000" "00:00:01.000"
      "00:00:02.000" ["plain words"] (by decide) (by decide)⟩

/-- One cue block of a VTT input: an id line, a timestamp line, and text
lines; `blockLines` renders it as it appears in the file, terminated by a
blank separator line. -/
structure VttBlock where
  id : String
  tsLine : String
  textLines : List String

def blockLines (b : VttBlock) : List String :=
  b.id :: b.tsLine :: (b.textLines ++ [""])

/-- A well-formed block: non-blank id line without `-->`, a timestamp line
containing `-->` that matches the timestamp pattern, and at least one
non-blank text line. -/
abbrev WFBlock (b : VttBlock) : Prop :=
  pyStrip b.id ≠ "" ∧
  hasSubstr "-->".data (pyStrip b.id).data = false ∧
  pyStrip b.tsLine ≠ "" ∧
  hasSubstr "-->".data (pyStrip b.tsLine).data = true ∧
  (matchTimestamp (pyStrip b.tsLine)).isSome ∧
  b.textLines ≠ [] ∧ (∀ t ∈ b.textLines, pyStrip t ≠ "")

/-- The segment a block contributes: `_add_segment` applied to the stripped
id, stripped timestamp line and stripped text lines, exactly as the scanning
loop accumulates them. -/
def segOf (b : VttBlock) : List TranscriptSegment :=
  add_segment (pyStrip b.id) (pyStrip b.tsLine) (b.textLines.map pyStrip)

/-- Malformed block, variant A: its timestamp line fails the pattern by not
containing `-->` at all (e.g. `"not-a-time"`), and no line of the block
contains `-->` (each line is non-blank). -/
abbrev MalBlockA (b : VttBlock) : Prop :=
  pyStrip b.id ≠ "" ∧
  hasSubstr "-->".data (pyStrip b.id).data = false ∧
  pyStrip b.tsLine ≠ "" ∧
  hasSubstr "-->".data (pyStrip b.tsLine).data = false ∧
  (∀ t ∈ b.textLines, pyStrip t ≠ "" ∧
    hasSubstr "-->".data (pyStrip t).data = false)

/-- Malformed block, variant B: its timestamp line contains `-->` but fails
the full timestamp pattern (e.g. `"not --> a-time"`). -/
abbrev MalBlockB (b : VttBlock) : Prop :=
  pyStrip b.id ≠ "" ∧
  hasSubstr "-->".data (pyStrip b.id).data = false ∧
  pyStrip b.tsLine ≠ "" ∧
  hasSubstr "-->".data (pyStrip b.tsLine).data = true ∧
  matchTimestamp (pyStrip b.tsLine) = none ∧
  b.textLines ≠ [] ∧ (∀ t ∈ b.textLines, pyStrip t ≠ "")

theorem add_segment_none (segment_id timestamp : String) (text_lines : List String)
    (h : matchTimestamp timestamp = none) :
    add_segment segment_id timestamp text_lines = [] := by
  simp [add_segment, h]

theorem segOf_length (b : VttBlock) (hwf : WFBlock b) : (segOf b).length = 1 := by
  rcases Option.isSome_iff_exists.mp hwf.2.2.2.2.1 with ⟨p, hp⟩
  match p with
  | (st, en) =>
    rcases h : reSearchVTag (joinSpace (b.textLines.map pyStrip)).data with _ | g <;>
      simp [segOf, add_segment, hp, h]

theorem parseLoop_id_line (l : String) (hne : pyStrip l ≠ "")
    (harrow : hasSubstr "-->".data (pyStrip l).data = false)
    (x y : String) (txt : List String) (rest : List String) :
    parseLoop false x y txt (l :: rest) = parseLoop false (pyStrip l) y txt rest := by
  rw [parseLoop]
  simp [hne, harrow]

theorem parseLoop_ts_line (l : String) (hne : pyStrip l ≠ "")
    (harrow : hasSubstr "-->".data (pyStrip l).data = true)
    (x y : String) (txt : List String) (rest : List String) :
    parseLoop false x y txt (l :: rest) = parseLoop true x (pyStrip l) txt rest := by
  rw [parseLoop]
  simp [hne, harrow]

theorem parseLoop_collect_line (l : String) (hne : pyStrip l ≠ "")
    (x y : String) (txt : List String) (rest : List String) :
    parseLoop true x y txt (l :: rest) = parseLoop true x y (txt ++ [pyStrip l]) rest := by
  rw [parseLoop]
  simp [hne]

theorem parseLoop_blank_emit (l : String) (hbl : pyStrip l = "") (mode : Bool)
    (x y : String) (txt : List String)
    (hx : x ≠ "") (hy : y ≠ "") (ht : txt ≠ []) (rest : List String) :
    parseLoop mode x y txt (l :: rest) =
      add_segment x y txt ++ parseLoop false "" "" [] rest := by
  rw [parseLoop]
  cases mode <;> simp [hbl, hx, hy, ht]

theorem parseLoop_blank_skip (l : String) (hbl : pyStrip l = "") (mode : Bool)
    (x y : String) (txt : List String)
    (hcond : (x != "" && y != "" && !txt.isEmpty) = false) (rest : List String) :
    parseLoop mode x y txt (l :: rest) = parseLoop false x y txt rest := by
  rw [parseLoop]
  cases mode <;> simp [hbl, hcond]

theorem parseLoop_collect_all (x y : String) :
    ∀ (ls : List String) (txt : List String) (rest : List String),
      (∀ t ∈ ls, pyStrip t ≠ "") →
      parseLoop true x y txt (ls ++ rest) =
        parseLoop true x y (txt ++ ls.map pyStrip) rest := by
  intro ls
  induction ls with
  | nil => intro txt rest _; simp
  | cons t ls ih =>
    intro txt rest hall
    rw [List.cons_append, parseLoop_collect_line t (hall t (by simp)),
      ih (txt ++ [pyStrip t]) rest (fun u hu => hall u (by simp [hu]))]
    simp

theorem parseLoop_id_all (x y : String) :
    ∀ (ls : List String) (rest : List String),
      (∀ l ∈ ls, pyStrip l ≠ "" ∧ hasSubstr "-->".data (pyStrip l).data = false) →
      parseLoop false x y [] (ls ++ rest) =
        parseLoop false (ls.foldl (fun _ l => pyStrip l) x) y [] rest := by
  intro ls
  induction ls generalizing x with
  | nil => intro rest _; simp
  | cons l ls ih =>
    intro rest hall
    rw [List.cons_append,
      parseLoop_id_line l (hall l (by simp)).1 (hall l (by simp)).2,
      ih (pyStrip l) rest (fun u hu => hall u (by simp [hu]))]
    simp

theorem parseLoop_wf_block (b : VttBlock) (hwf : WFBlock b) (x y : String)
    (rest : List String) :
    parseLoop false x y [] (blockLines b ++ rest) =
      segOf b ++ parseLoop false "" "" [] rest := by
  obtain ⟨hid, hidarrow, hts, htsarrow, _, htne, htall⟩ := hwf
  have hshape : blockLines b ++ rest = b.id :: b.tsLine :: (b.textLines ++ "" :: rest) := by
    simp [blockLines]
  rw [hshape, parseLoop_id_line b.id hid hidarrow,
    parseLoop_ts_line b.tsLine hts htsarrow,
    parseLoop_collect_all _ _ b.textLines [] ("" :: rest) htall,
    List.nil_append,
    parseLoop_blank_emit "" rfl true (pyStrip b.id) (pyStrip b.tsLine)
      (b.textLines.map pyStrip) hid hts (by simpa using htne)]
  rfl

theorem parseLoop_blocks_from (bs : List VttBlock) :
    ∀ (x y : String), (∀ b ∈ bs, WFBlock b) →
      parseLoop false x y [] ((bs.map blockLines).flatten) =
        (bs.map segOf).flatten := by
  induction bs with
  | nil =>
    intro x y _
    simp [parseLoop]
  | cons b bs ih =>
    intro x y hall
    simp only [List.map_cons, List.flatten_cons]
    rw [parseLoop_wf_block b (hall b (by simp)),
      ih "" "" (fun u hu => hall u (by simp [hu]))]

theorem parseLoop_blocks_pre (bs : List VttBlock) :
    ∀ (rest : List String), (∀ b ∈ bs, WFBlock b) →
      parseLoop false "" "" [] ((bs.map blockLines).flatten ++ rest) =
        (bs.map segOf).flatten ++ parseLoop false "" "" [] rest := by
  induction bs with
  | nil => intro rest _; simp
  | cons b bs ih =>
    intro rest hall
    simp only [List.map_cons, List.flatten_cons, List.append_assoc]
    rw [parseLoop_wf_block b (hall b (by simp)),
      ih rest (fun u hu => hall u (by simp [hu]))]

theorem parseLoop_nil_start : parseLoop false "" "" [] [] = [] := rfl

theorem parseLoop_mal_block (mal : VttBlock) (hm : MalBlockA mal ∨ MalBlockB mal)
    (rest : List String) :
    ∃ z : String, parseLoop false "" "" [] (blockLines mal ++ rest) =
      parseLoop false z "" [] rest := by
  rcases hm with ⟨hid, hidarrow, hts, htsarrow, htall⟩ |
    ⟨hid, hidarrow, hts, htsarrow, htsmatch, htne, htall⟩
  · refine ⟨(mal.id :: mal.tsLine :: mal.textLines).foldl (fun _ l => pyStrip l) "", ?_⟩
    have hshape : blockLines mal ++ rest
        = (mal.id :: mal.tsLine :: mal.textLines) ++ "" :: rest := by
      simp [blockLines]
    rw [hshape, parseLoop_id_all "" "" (mal.id :: mal.tsLine :: mal.textLines)
      ("" :: rest) ?hall]
    case hall =>
      intro l hl
      simp only [List.mem_cons] at hl
      rcases hl with rfl | rfl | hl
      · exact ⟨hid, hidarrow⟩
      · exact ⟨hts, htsarrow⟩
      · exact htall l hl
    rw [parseLoop_blank_skip "" rfl false _ "" [] (by simp) rest]
  · refine ⟨"", ?_⟩
    have hshape : blockLines mal ++ rest
        = mal.id :: mal.tsLine :: (mal.textLines ++ "" :: rest) := by
      simp [blockLines]
    rw [hshape, parseLoop_id_line mal.id hid hidarrow,
      parseLoop_ts_line mal.tsLine hts htsarrow,
      parseLoop_collect_all _ _ mal.textLines [] ("" :: rest) htall,
      List.nil_append,
      parseLoop_blank_emit "" rfl true (pyStrip mal.id) (pyStrip mal.tsLine)
        (mal.textLines.map pyStrip) hid hts (by simpa using htne),
      add_segment_none _ _ _ htsmatch]
    simp

theorem parseLines_header (body : List String) :
    parseLines ("WEBVTT" :: "" :: body) =
      parseLoop false "" "" [] (body.dropWhile (fun l => pyStrip l == "")) := by
  have h1 : ("WEBVTT" :: "" :: body).dropWhile
      (fun l => !(pyStartsWith "WEBVTT" (pyStrip l))) = "WEBVTT" :: "" :: body := by
    rw [List.dropWhile_cons, if_neg (by decide)]
  have h2 : ("WEBVTT" :: "" :: body : List String).drop 1 = "" :: body := rfl
  have h3 : ("" :: body).dropWhile (fun l => pyStrip l == "") =
      body.dropWhile (fun l => pyStrip l == "") := by
    rw [List.dropWhile_cons, if_pos (by decide)]
  simp only [parseLines, h1, h2, h3]

theorem dropWhile_blank_flatten (bs : List VttBlock)
    (h : ∀ b ∈ bs, pyStrip b.id ≠ "") :
    ((bs.map blockLines).flatten).dropWhile (fun l => pyStrip l == "") =
      (bs.map blockLines).flatten := by
  match bs with
  | [] => rfl
  | b :: bs =>
    simp only [List.map_cons, List.flatten_cons, blockLines, List.cons_append]
    rw [List.dropWhile_cons, if_neg (by simp [h b (by simp)])]

/-- C8 counterexample: an input whose single cue block has the malformed
timestamp line `"not-a-time"` but whose text lines happen to contain a valid
timestamp line. The scanning loop treats `"not-a-time"` as an id line and the
embedded `-->` text line as the timestamp line, so the malformed block DOES
contribute a segment (with id `"not-a-time"`), contradicting the claim that
such a block contributes no segment to the output. -/
theorem parse_malformed_counterexample :
    parse "WEBVTT\n\n1\nnot-a-time\n00:00:01.000 --> 00:00:02.000\nhello\n" =
      [⟨"not-a-time", "00:00:01.000", "00:00:02.000", "Unknown", "hello"⟩] ∧
    parse "WEBVTT\n\n1\nnot-a-time\n00:00:01.000 --> 00:00:02.000\nhello\n" ≠ [] :=
  ⟨by decide, by decide⟩

/-- C8 amended: for an input of a WEBVTT header followed by blank-line
separated cue blocks, where every block but one is well-formed and the one
malformed block either contains no `-->` on any line (variant A) or has a
`-->` timestamp line that fails the timestamp pattern (variant B), parsing
returns (totally — the embedding is a total function, so no exception),
the malformed block contributes no segment, and the output equals the parse
of the same input with the malformed block absent, each well-formed block
contributing exactly one segment. -/
theorem parse_malformed_block_skipped (pre post : List VttBlock) (mal : VttBlock)
    (hpre : ∀ b ∈ pre, WFBlock b) (hpost : ∀ b ∈ post, WFBlock b)
    (hmal : MalBlockA mal ∨ MalBlockB mal) :
    parseLines ("WEBVTT" :: "" :: (((pre ++ [mal] ++ post).map blockLines).flatten)) =
      ((pre ++ post).map segOf).flatten ∧
    parseLines ("WEBVTT" :: "" :: (((pre ++ post).map blockLines).flatten)) =
      ((pre ++ post).map segOf).flatten ∧
    (∀ b ∈ pre ++ post, (segOf b).length = 1) := by
  have hidmal : pyStrip mal.id ≠ "" := by
    rcases hmal with h | h
    · exact h.1
    · exact h.1
  refine ⟨?_, ?_, ?_⟩
  · rw [parseLines_header, dropWhile_blank_flatten _ ?hids]
    case hids =>
      intro b hb
      simp only [List.mem_append, List.mem_singleton] at hb
      rcases hb with (hb | rfl) | hb
      · exact (hpre b hb).1
      · exact hidmal
      · exact (hpost b hb).1
    rw [show ((pre ++ [mal] ++ post).map blockLines).flatten
        = (pre.map blockLines).flatten
          ++ (blockLines mal ++ (post.map blockLines).flatten) from by simp]
    rw [parseLoop_blocks_pre pre _ hpre]
    obtain ⟨z, hz⟩ := parseLoop_mal_block mal hmal ((post.map blockLines).flatten)
    rw [hz, parseLoop_blocks_from post z "" hpost]
    simp
  · rw [parseLines_header, dropWhile_blank_flatten _ ?hids2]
    case hids2 =>
      intro b hb
      rcases List.mem_append.mp hb with hb | hb
      · exact (hpre b hb).1
      · exact (hpost b hb).1
    exact parseLoop_blocks_from (pre ++ post) "" "" (by
      intro b hb
      rcases List.mem_append.mp hb with hb | hb
      · exact hpre b hb
      · exact hpost b hb)
  · intro b hb
    rcases List.mem_append.mp hb with hb | hb
    · exact segOf_length b (hpre b hb)
    · exact segOf_length b (hpost b hb)

/-- A closed instance of `parse_malformed_block_skipped`: one well-formed
block followed by a variant-A malformed block. -/
theorem parse_malformed_block_skipped_witness :
    (∀ b ∈ [(⟨"1", "00:00:01.000 --> 00:00:02.000", ["hello"]⟩ : VttBlock)],
      WFBlock b) ∧
    (MalBlockA (⟨"2", "not-a-time", ["junk"]⟩ : VttBlock) ∨
      MalBlockB (⟨"2", "not-a-time", ["junk"]⟩ : VttBlock)) ∧
    parseLines ("WEBVTT" :: "" ::
        ((([(⟨"1", "00:00:01.000 --> 00:00:02.000", ["hello"]⟩ : VttBlock)]
            ++ [(⟨"2", "not-a-time", ["junk"]⟩ : VttBlock)] ++ []).map
              blockLines).flatten)) =
      ((([(⟨"1", "00:00:01.000 --> 00:00:02.000", ["hello"]⟩ : VttBlock)]
          ++ []).map segOf).flatten) :=
  ⟨by decide, Or.inl (by decide),
    (parse_malformed_block_skipped
      [(⟨"1", "00:00:01.000 --> 00:00:02.000", ["hello"]⟩ : VttBlock)] []
      (⟨"2", "not-a-time", ["junk"]⟩ : VttBlock)
      (by decide) (by decide) (Or.inl (by decide))).1⟩
